import Mathlib

/-
Verification development for the Zendesk-to-Ada article migration utility
(src/zd_uploadcopy.py). The pipeline logic of that script is shallowly
embedded below: dictionaries become records, the Streamlit session state
read by a function becomes an explicit argument, the HTTP layer becomes an
oracle mapping a base url to the article list obtained by paginating it,
and the html2text converter (an external library) becomes an opaque
function parameter. Line numbers in doc comments refer to
src/zd_uploadcopy.py.
-/

namespace ZD

/-- A Zendesk brand record, as consumed by the pipeline:
id, name, subdomain, host_mapping (absent or empty means no custom
domain). -/
structure Brand where
  id : Int
  name : String
  subdomain : String
  host_mapping : Option String
deriving DecidableEq, Repr

/-- A Zendesk help-center section record: the lookup table entry mapping a
section id to its category id (category_id read with a dictionary get, so
modelled as optional). -/
structure Section where
  id : Int
  category_id : Option Int
deriving DecidableEq, Repr

/-- A raw Zendesk article as the fetch functions return it. Fields read
with a dictionary get in the source are optional here; the four underscore
fields are the transient brand annotations attached by the brand-scoped
fetch loops and absent otherwise. -/
structure RawArticle where
  id : Int
  title : String
  body : Option String
  html_url : String
  locale : Option String
  section_id : Option Int
  draft : Option Bool
  _brand_name : Option String := none
  _brand_id : Option Int := none
  _brand_subdomain : Option String := none
  _brand_url : Option String := none
deriving DecidableEq, Repr

/-- A destination (Ada) article as assembled by format_articles_for_ada. -/
structure TransformedArticle where
  id : String
  name : String
  content : String
  knowledge_source_id : String
  url : String
  tag_ids : List Int
  language : String
deriving DecidableEq, Repr

/-- Embeds get_brand_base_url (lines 79-84). Python truthiness of the
host_mapping value: a missing or empty host_mapping selects the
subdomain.zendesk.com form, a non-empty one the custom-domain form. -/
def get_brand_base_url (brand : Brand) : String :=
  match brand.host_mapping with
  | some h =>
    if h = "" then "https://" ++ brand.subdomain ++ ".zendesk.com"
    else "https://" ++ h
  | none => "https://" ++ brand.subdomain ++ ".zendesk.com"

/-- UTF-8 byte length of a character list (each character contributes its
UTF-8 encoding size). -/
def utf8ByteLen : List Char → Nat
  | [] => 0
  | c :: cs => c.utf8Size + utf8ByteLen cs

/-- UTF-8 byte length of a string, the Lean counterpart of taking the
length of the UTF-8 encoding of a Python string. -/
def utf8Len (s : String) : Nat := utf8ByteLen s.data

/-- Embeds check_article_size (lines 65-69), executable form. The source
divides the byte length by 1024 in binary floating point and compares the
quotient with 100; because division by 1024 is exact in binary floating
point at these magnitudes, that comparison holds exactly when the byte
length is at most 102400. The literal rational transcription is
check_article_size_spec below, and size_gate_spec proves the two agree. -/
def check_article_size (content : String) : Bool :=
  decide (utf8Len content ≤ 102400)

/-- Literal transcription of the comparison in check_article_size: the
byte length divided by 1024 (exact arithmetic) is at most 100. -/
def check_article_size_spec (content : String) : Prop :=
  (utf8Len content : ℚ) / 1024 ≤ 100

/-- Embeds filter_published_articles (lines 86-98), with the published_only
session flag passed explicitly. An article is kept when its draft field,
read with a dictionary get defaulting to True, is False. -/
def filter_published_articles (published_only : Bool)
    (articles : List RawArticle) : List RawArticle :=
  if !published_only then articles
  else articles.filter (fun a => !(a.draft.getD true))

/-- Embeds filter_by_categories (lines 683-701), with the sections table
passed explicitly in place of session state. The boolean of the result
records whether the fail-open warning branch fired (sections table empty).
An article is appended exactly when some section matches its section id
and carries a selected category id; Python truthiness of the section id
makes a zero section id behave like a missing one. -/
def filter_by_categories (sections : List Section) (articles : List RawArticle)
    (selected_categories : List Int) : List RawArticle × Bool :=
  if selected_categories = [] then (articles, false)
  else if sections = [] then (articles, true)
  else
    (articles.filter (fun a =>
      match a.section_id with
      | none => false
      | some sid =>
        if sid = 0 then false
        else sections.any (fun s =>
          s.id == sid &&
          (match s.category_id with
           | some c => decide (c ∈ selected_categories)
           | none => false))), false)

/-- The deduplication loop ending fetch_articles_with_filters (lines
486-492): a seen-ids set and first-occurrence append, keyed on the numeric
article id alone. -/
def dedupeAux (seen : List Int) : List RawArticle → List RawArticle
  | [] => []
  | a :: rest =>
    if a.id ∈ seen then dedupeAux seen rest
    else a :: dedupeAux (a.id :: seen) rest

/-- Deduplication entry point: run the loop with an empty seen set. -/
def dedupe (articles : List RawArticle) : List RawArticle := dedupeAux [] articles

/-- One invocation of an article-fetch function, recording which fetch
function ran and which base url it paginated. -/
inductive FetchCall where
  | brand (b : Brand) (base_url : String)
  | localeOnly (locale : String) (base_url : String)
  | brandLocale (b : Brand) (locale : String) (base_url : String)
  | allArticles (base_url : String)
deriving DecidableEq, Repr

/-- The brand-annotation loop body shared by fetch_brand_articles and
fetch_brand_locale_articles (lines 524-528 and 624-628). -/
def annotateBrand (brand : Brand) (a : RawArticle) : RawArticle :=
  { a with
    _brand_name := some brand.name
    _brand_id := some brand.id
    _brand_subdomain := some brand.subdomain
    _brand_url := some (get_brand_base_url brand) }

/-- Embeds fetch_brand_articles (lines 501-553). The src oracle stands for
paginating the base url to completion; every returned article is stamped
with the brand annotations. -/
def fetch_brand_articles (src : String → List RawArticle) (brand : Brand) :
    List RawArticle × FetchCall :=
  let base_url := get_brand_base_url brand ++ "/api/v2/help_center/articles"
  ((src base_url).map (annotateBrand brand), FetchCall.brand brand base_url)

/-- Embeds fetch_locale_articles (lines 555-598): locale-scoped fetch from
the main subdomain, no brand annotation. -/
def fetch_locale_articles (src : String → List RawArticle)
    (zd_subdomain locale : String) : List RawArticle × FetchCall :=
  let base_url := "https://" ++ zd_subdomain ++ ".zendesk.com/api/v2/help_center/"
      ++ locale ++ "/articles"
  (src base_url, FetchCall.localeOnly locale base_url)

/-- Embeds fetch_brand_locale_articles (lines 600-653): fetch from the
brand base url for one locale, stamping brand annotations. -/
def fetch_brand_locale_articles (src : String → List RawArticle)
    (brand : Brand) (locale : String) : List RawArticle × FetchCall :=
  let base_url := get_brand_base_url brand ++ "/api/v2/help_center/"
      ++ locale ++ "/articles"
  ((src base_url).map (annotateBrand brand), FetchCall.brandLocale brand locale base_url)

/-- Embeds fetch_all_articles_for_category_filter (lines 655-681): the
whole unfiltered catalog from the main subdomain. -/
def fetch_all_articles_for_category_filter (src : String → List RawArticle)
    (zd_subdomain : String) : List RawArticle × FetchCall :=
  let base_url := "https://" ++ zd_subdomain ++ ".zendesk.com/api/v2/help_center/articles"
  (src base_url, FetchCall.allArticles base_url)

/-- The brand-only loop of the planner (lines 453-456): one
fetch_brand_articles call per selected brand object, results concatenated
in order. -/
def brandLoop (src : String → List RawArticle) :
    List Brand → List RawArticle × List FetchCall
  | [] => ([], [])
  | b :: bs =>
    let r := fetch_brand_articles src b
    let rest := brandLoop src bs
    (r.1 ++ rest.1, r.2 :: rest.2)

/-- The locale-only loop of the planner (lines 458-462): one
fetch_locale_articles call per selected locale. -/
def localeLoop (src : String → List RawArticle) (zd_subdomain : String) :
    List String → List RawArticle × List FetchCall
  | [] => ([], [])
  | l :: ls =>
    let r := fetch_locale_articles src zd_subdomain l
    let rest := localeLoop src zd_subdomain ls
    (r.1 ++ rest.1, r.2 :: rest.2)

/-- Inner loop of the brand-and-locale branch (lines 466-468): all locales
for one brand. -/
def brandLocaleInner (src : String → List RawArticle) (brand : Brand) :
    List String → List RawArticle × List FetchCall
  | [] => ([], [])
  | l :: ls =>
    let r := fetch_brand_locale_articles src brand l
    let rest := brandLocaleInner src brand ls
    (r.1 ++ rest.1, r.2 :: rest.2)

/-- Outer loop of the brand-and-locale branch (lines 464-468): the full
cross product, brands outermost. -/
def brandLocaleLoop (src : String → List RawArticle) :
    List Brand → List String → List RawArticle × List FetchCall
  | [], _ => ([], [])
  | b :: bs, ls =>
    let r := brandLocaleInner src b ls
    let rest := brandLocaleLoop src bs ls
    (r.1 ++ rest.1, r.2 ++ rest.2)

/-- The ambient state read by fetch_articles_with_filters: whether Zendesk
credentials are present, the main subdomain, the loaded brand and section
tables, the published-only flag, and the HTTP pagination oracle. -/
structure FetchEnv where
  auth : Bool
  zd_subdomain : String
  brands : List Brand
  sections : List Section
  published_only : Bool
  src : String → List RawArticle

/-- The branch dispatch of fetch_articles_with_filters (lines 449-473),
with the conditions in source order: brand-only, locale-only,
brand-and-locale cross product, category-only (fetch the whole catalog,
then category filter). The brand objects are the loaded brands whose id is
selected (lines 450-451). -/
def planBranches (env : FetchEnv) (selected_locales : List String)
    (selected_brands selected_categories : List Int) :
    List RawArticle × List FetchCall :=
  if selected_brands ≠ [] ∧ selected_locales = [] then
    brandLoop env.src (env.brands.filter (fun b => decide (b.id ∈ selected_brands)))
  else if selected_locales ≠ [] ∧ selected_brands = [] then
    localeLoop env.src env.zd_subdomain selected_locales
  else if selected_brands ≠ [] ∧ selected_locales ≠ [] then
    brandLocaleLoop env.src
      (env.brands.filter (fun b => decide (b.id ∈ selected_brands))) selected_locales
  else if selected_categories ≠ [] ∧ selected_brands = [] ∧ selected_locales = [] then
    ((filter_by_categories env.sections
        (fetch_all_articles_for_category_filter env.src env.zd_subdomain).1
        selected_categories).1,
      [(fetch_all_articles_for_category_filter env.src env.zd_subdomain).2])
  else ([], [])

/-- Embeds fetch_articles_with_filters (lines 422-499): the planner.
Empty selector lists play the role of falsy filter arguments. After the
missing-credentials and no-filter early returns and the dispatched
branches come the category post-pass when categories are combined with
brands or locales (lines 475-476), the published-only pass (lines
478-484), and deduplication (lines 486-492). The second component collects
the fetch calls issued. -/
def fetch_articles_with_filters (env : FetchEnv)
    (selected_locales : List String) (selected_brands : List Int)
    (selected_categories : List Int) : List RawArticle × List FetchCall :=
  if !env.auth then ([], [])
  else if selected_locales = [] ∧ selected_brands = [] ∧ selected_categories = [] then
    ([], [])
  else
    (dedupe (filter_published_articles env.published_only
      (if selected_categories ≠ [] ∧ (selected_brands ≠ [] ∨ selected_locales ≠ []) then
        (filter_by_categories env.sections
          (planBranches env selected_locales selected_brands selected_categories).1
          selected_categories).1
      else (planBranches env selected_locales selected_brands selected_categories).1)),
     (planBranches env selected_locales selected_brands selected_categories).2)

/-- The six components returned by urlparse in the Python standard
library: scheme, netloc, path, params, query, fragment. -/
structure ParseResult where
  scheme : String
  netloc : String
  path : String
  params : String
  query : String
  fragment : String
deriving DecidableEq, Repr

/-- The characters urlsplit removes from a url before parsing (tab,
carriage return, line feed). -/
def unsafeUrlChar (c : Char) : Bool := c = '\t' || c = '\r' || c = '\n'

/-- The characters allowed in a url scheme by urlsplit. -/
def scheme_chars : List Char :=
  ("abcdefghijklmnopqrstuvwxyzABCDEFGHIJKLMNOPQRSTUVWXYZ0123456789+-." : String).data

/-- Split a character list at the first occurrence of a character, the
counterpart of a split with count one; none when the character is absent. -/
def splitFirst (c : Char) : List Char → Option (List Char × List Char)
  | [] => none
  | x :: xs =>
    if x = c then some ([], xs)
    else (splitFirst c xs).map (fun p => (x :: p.1, p.2))

/-- Split a character list at the last occurrence of a character; the
second component contains no further occurrence. -/
def splitLast (c : Char) : List Char → Option (List Char × List Char)
  | [] => none
  | x :: xs =>
    match splitLast c xs with
    | some p => some (x :: p.1, p.2)
    | none => if x = c then some ([], xs) else none

/-- The scheme-splitting step of urlsplit: the text before the first colon
is a scheme when it is non-empty, starts with an ASCII letter and consists
of scheme characters; it is then lower-cased and removed. -/
def splitScheme (url : List Char) : List Char × List Char :=
  match splitFirst ':' url with
  | some ([], _) => ([], url)
  | some (c :: cs, after) =>
    if c.isAlpha && (c :: cs).all (fun ch => decide (ch ∈ scheme_chars))
    then ((c :: cs).map Char.toLower, after)
    else ([], url)
  | none => ([], url)

/-- Delimiters ending the netloc component. -/
def netlocDelim (c : Char) : Bool := c = '/' || c = '?' || c = '#'

/-- The netloc-splitting step of urlsplit: after a leading double slash,
the netloc runs to the first slash, question mark or hash. -/
def splitNetloc (url : List Char) : List Char × List Char :=
  match url with
  | '/' :: '/' :: rest =>
    (rest.takeWhile (fun c => !netlocDelim c), rest.dropWhile (fun c => !netlocDelim c))
  | _ => ([], url)

/-- Embeds urlsplit from the Python standard library (CPython 3.11, with
fragments allowed and no default scheme): remove unsafe characters, then
split scheme, netloc, fragment and query in that order. -/
def urlsplitList (url0 : List Char) : ParseResult :=
  let url1 := url0.filter (fun c => !unsafeUrlChar c)
  let s := splitScheme url1
  let n := splitNetloc s.2
  let fr :=
    match splitFirst '#' n.2 with
    | some p => p
    | none => (n.2, [])
  let q :=
    match splitFirst '?' fr.1 with
    | some p => p
    | none => (fr.1, [])
  { scheme := String.mk s.1, netloc := String.mk n.1, path := String.mk q.1,
    params := "", query := String.mk q.2, fragment := String.mk fr.2 }

/-- The schemes for which urlparse splits params off the path. -/
def uses_params : List String :=
  ["", "ftp", "hdl", "prospero", "http", "imap", "https", "shttp", "rtsp",
   "rtspu", "sip", "sips", "mms", "sftp", "tel"]

/-- The params-splitting helper of urlparse: params are everything after
the first semicolon of the last path segment. -/
def splitParams (url : List Char) : List Char × List Char :=
  if '/' ∈ url then
    match splitLast '/' url with
    | some (pre, post) =>
      match splitFirst ';' post with
      | some p => (pre ++ '/' :: p.1, p.2)
      | none => (url, [])
    | none => (url, [])
  else
    match splitFirst ';' url with
    | some p => (p.1, p.2)
    | none => (url, [])

/-- Embeds urlparse from the Python standard library: urlsplit followed by
params splitting when the scheme uses params and the path contains a
semicolon. -/
def urlparse (url : String) : ParseResult :=
  let r := urlsplitList url.data
  if r.scheme ∈ uses_params ∧ ';' ∈ r.path.data then
    let p := splitParams r.path.data
    { r with path := String.mk p.1, params := String.mk p.2 }
  else r

/-- ASCII lower-casing of a string, the counterpart of the Python lower
method on the ASCII fragment the pipeline feeds it. -/
def pyLower (s : String) : String := String.mk (s.data.map Char.toLower)

/-- Default whitespace stripped by the Python strip method (ASCII part). -/
def pyWhitespace (c : Char) : Bool :=
  c = ' ' || c = '\t' || c = '\n' || c = '\r' || c = '\x0b' || c = '\x0c'

/-- The Python strip method with no argument: remove whitespace from both
ends. -/
def pyStrip (s : String) : String :=
  String.mk (((s.data.dropWhile pyWhitespace).reverse.dropWhile pyWhitespace).reverse)

/-- Python string slicing from the start: keep the first n characters. -/
def pyTake (n : Nat) (s : String) : String := String.mk (s.data.take n)

/-- The url-correction block of format_articles_for_ada (lines 727-742):
when the article carries a non-empty brand-url annotation and a non-empty
source url, rebuild the url from the brand base plus path, query and
fragment of the original; otherwise pass the source url through. -/
def corrected_url (a : RawArticle) : String :=
  match a._brand_url with
  | some brand_base_url =>
    if brand_base_url = "" ∨ a.html_url = "" then a.html_url
    else
      let parsed := urlparse a.html_url
      brand_base_url ++ parsed.path
        ++ (if parsed.query = "" then "" else "?" ++ parsed.query)
        ++ (if parsed.fragment = "" then "" else "#" ++ parsed.fragment)
  | none => a.html_url

/-- One iteration of the format loop of format_articles_for_ada (lines
712-763), parametric in the html2text conversion. The language is the
stripped, lower-cased override when that is non-empty, else the article
locale lower-cased, else the default en; the destination id is the zd_
prefix, the numeric id, a dash and the article locale; the name is the
title cut to 255 characters. Returns none when the size gate skips the
article. -/
def format_one (conv : String → String) (knowledge_source_id : String)
    (override_language : Option String) (a : RawArticle) :
    Option TransformedArticle :=
  let zd_locale := a.locale.getD "en"
  let ada_language :=
    match override_language with
    | some ov =>
      if ov ≠ "" ∧ pyStrip ov ≠ "" then pyLower (pyStrip ov)
      else if zd_locale ≠ "" then pyLower zd_locale else "en"
    | none => if zd_locale ≠ "" then pyLower zd_locale else "en"
  let markdown_content := conv (a.body.getD "")
  if check_article_size markdown_content then
    some { id := "zd_" ++ toString a.id ++ "-" ++ zd_locale
           name := pyTake 255 a.title
           content := markdown_content
           knowledge_source_id := knowledge_source_id
           url := corrected_url a
           tag_ids := []
           language := ada_language }
  else none

/-- The batch result of format_articles_for_ada: formatted articles plus
the local skip counter the source reports through its logs. -/
structure FormatResult where
  articles : List TransformedArticle
  skipped_count : Nat
deriving DecidableEq, Repr

/-- Embeds format_articles_for_ada (lines 703-767): run the format loop
over the batch, collecting formatted articles in order and counting
size-gate skips. -/
def format_articles_for_ada (conv : String → String) (articles : List RawArticle)
    (knowledge_source_id : String) (override_language : Option String) :
    FormatResult :=
  match articles with
  | [] => { articles := [], skipped_count := 0 }
  | a :: rest =>
    let r := format_articles_for_ada conv rest knowledge_source_id override_language
    match format_one conv knowledge_source_id override_language a with
    | some t => { articles := t :: r.articles, skipped_count := r.skipped_count }
    | none => { articles := r.articles, skipped_count := r.skipped_count + 1 }

/-- One HTTP response observed by the upload loop: a status code, or a
requests exception (network fault). -/
inductive UploadResp where
  | status (code : Nat)
  | netErr
deriving DecidableEq, Repr

/-- The aggregate counters of upload_articles_to_ada, plus the total time
spent in the sixty-second rate-limit cooldown sleeps. -/
structure UploadSummary where
  success_count : Nat
  error_count : Nat
  wait_time : Nat
deriving DecidableEq, Repr

/-- The inner while-true loop of upload_articles_to_ada (lines 793-824)
run on one article against a script of responses, consumed one per
attempt: status 200 or 201 ends the loop in success, status 429 sleeps
sixty time-units and retries, any other status or a network fault ends the
loop in error. none models the loop never terminating, which happens only
when the script is exhausted while still rate limited. -/
def uploadOne : List UploadResp → Option (Bool × Nat)
  | [] => none
  | UploadResp.status code :: rest =>
    if code = 200 ∨ code = 201 then some (true, 0)
    else if code = 429 then (uploadOne rest).map (fun r => (r.1, r.2 + 60))
    else some (false, 0)
  | UploadResp.netErr :: _ => some (false, 0)

/-- Embeds upload_articles_to_ada (lines 769-827) over per-article
response scripts in batch order: each article runs its own retry loop,
success and error counters accumulate, and the batch never aborts early. -/
def upload_articles_to_ada : List (List UploadResp) → Option UploadSummary
  | [] => some { success_count := 0, error_count := 0, wait_time := 0 }
  | s :: rest =>
    match uploadOne s with
    | none => none
    | some r =>
      match upload_articles_to_ada rest with
      | none => none
      | some acc =>
        some { success_count := (if r.1 then 1 else 0) + acc.success_count
               error_count := (if r.1 then 0 else 1) + acc.error_count
               wait_time := r.2 + acc.wait_time }

/-- The scenario-A raw article: id 42, title T, a small html body, the
zendesk html url, locale en, not a draft, no brand annotation. -/
def articleA : RawArticle :=
  { id := 42, title := "T", body := some "<p>hi</p>",
    html_url := "https://foo.zendesk.com/hc/en-us/articles/42",
    locale := some "en", section_id := none, draft := some false }

/-- The scenario-B raw article: scenario A annotated with the brand url
https help.bar.com. -/
def articleB : RawArticle := { articleA with _brand_url := some "https://help.bar.com" }

/-- The transformed article scenario B produces under the constant-empty
conversion, used as a concrete witness. -/
def articleBout : TransformedArticle :=
  { id := "zd_42-en", name := "T", content := "", knowledge_source_id := "k",
    url := "https://help.bar.com/hc/en-us/articles/42", tag_ids := [],
    language := "en" }

/-- A brand with id 1 and no custom domain. -/
def brand1 : Brand := { id := 1, name := "B1", subdomain := "b1", host_mapping := none }

/-- A fetch environment holding only brand1, used as a concrete witness. -/
def envW : FetchEnv :=
  { auth := true, zd_subdomain := "main", brands := [brand1], sections := [],
    published_only := false, src := fun _ => [] }

/-- A published article (draft present and false). -/
def artPub : RawArticle :=
  { id := 2, title := "pub", body := none, html_url := "", locale := some "en",
    section_id := none, draft := some false }

/-- A draft article (draft present and true). -/
def artDraftTrue : RawArticle := { artPub with id := 3, draft := some true }

/-- An article with no draft field at all. -/
def artNoDraft : RawArticle := { artPub with id := 4, draft := none }

/-- A fetch environment whose oracle returns one draft, one published and
one draft-less article, with published-only filtering active. -/
def envP : FetchEnv :=
  { auth := true, zd_subdomain := "main", brands := [], sections := [],
    published_only := true, src := fun _ => [artDraftTrue, artPub, artNoDraft] }

/-- A locale variant of articleA differing only in its locale field. -/
def articleAfr : RawArticle := { articleA with locale := some "fr" }

/-- A section whose id is zero, mapping to category 5. -/
def sectionZero : Section := { id := 0, category_id := some 5 }

/-- An article whose section id is the integer zero. -/
def articleSectionZero : RawArticle :=
  { id := 1, title := "z", body := none, html_url := "", locale := none,
    section_id := some 0, draft := none }

/-- A section with id 2 mapping to category 7. -/
def sectionTwo : Section := { id := 2, category_id := some 7 }

/-- An article sitting in section 2. -/
def articleSectionTwo : RawArticle :=
  { id := 6, title := "s", body := none, html_url := "", locale := none,
    section_id := some 2, draft := none }

/-- A string of exactly 102400 ASCII bytes. -/
def bigContent : String := String.mk (List.replicate 102400 'a')

/-- A string of exactly 102401 ASCII bytes. -/
def overContent : String := String.mk (List.replicate 102401 'a')

/-- An article whose body is exactly 102400 bytes. -/
def artBig : RawArticle :=
  { id := 7, title := "big", body := some bigContent, html_url := "",
    locale := none, section_id := none, draft := none }

/-- An article whose body is exactly 102401 bytes. -/
def artOver : RawArticle := { artBig with id := 8, body := some overContent }

/- Theorems. -/

/-- The executable size gate agrees with the byte bound. -/
theorem check_article_size_iff (s : String) :
    check_article_size s = true ↔ utf8Len s ≤ 102400 := by
  simp [check_article_size]

/-- The literal rational transcription of the size comparison agrees with
the byte bound. -/
theorem check_article_size_spec_iff (s : String) :
    check_article_size_spec s ↔ utf8Len s ≤ 102400 := by
  unfold check_article_size_spec
  rw [div_le_iff₀ (by norm_num : (0:ℚ) < 1024)]
  norm_num

/-- Byte length of a replicated ASCII letter. -/
theorem utf8ByteLen_replicate_a (n : Nat) :
    utf8ByteLen (List.replicate n 'a') = n := by
  induction n with
  | zero => rfl
  | succ k ih =>
    rw [List.replicate_succ]
    show 'a'.utf8Size + utf8ByteLen (List.replicate k 'a') = k + 1
    rw [ih]
    have h1 : 'a'.utf8Size = 1 := by decide
    omega

/-- C3: the transform size gate is inclusive at 102400 UTF-8 bytes. The
executable gate and the literal divide-by-1024 comparison both hold
exactly when the converted content is at most 102400 bytes; an article
passes the format loop exactly under that bound and is then kept with its
full converted content (no truncation); a failing article is skipped
whole, incrementing the skip count by one. -/
theorem size_gate_spec :
    (∀ s, (check_article_size s = true ↔ utf8Len s ≤ 102400) ∧
          (check_article_size_spec s ↔ utf8Len s ≤ 102400)) ∧
    (∀ (conv : String → String) (ks : String) (ov : Option String) (a : RawArticle),
      ((format_one conv ks ov a).isSome = true ↔
        utf8Len (conv (a.body.getD "")) ≤ 102400) ∧
      (∀ t, format_one conv ks ov a = some t → t.content = conv (a.body.getD "")) ∧
      (∀ rest, (format_articles_for_ada conv (a :: rest) ks ov).skipped_count =
        (format_articles_for_ada conv rest ks ov).skipped_count +
          (if utf8Len (conv (a.body.getD "")) ≤ 102400 then 0 else 1))) := by
  refine ⟨fun s => ⟨check_article_size_iff s, check_article_size_spec_iff s⟩, ?_⟩
  intro conv ks ov a
  by_cases h : utf8Len (conv (a.body.getD "")) ≤ 102400
  · have hc : check_article_size (conv (a.body.getD "")) = true :=
      (check_article_size_iff _).mpr h
    refine ⟨by simp [format_one, hc, h], ?_, ?_⟩
    · intro t ht
      simp only [format_one, hc, if_true] at ht
      cases ht
      rfl
    · intro rest
      simp [format_articles_for_ada, format_one, hc, h]
  · have hc : check_article_size (conv (a.body.getD "")) = false := by
      rw [Bool.eq_false_iff]
      intro h1
      exact absurd ((check_article_size_iff _).mp h1) h
    refine ⟨by simp [format_one, hc, h], ?_, ?_⟩
    · intro t ht
      simp only [format_one, hc] at ht
      cases ht
    · intro rest
      simp [format_articles_for_ada, format_one, hc, h]

/-- Concrete boundary witness for the size gate: 102400 bytes is kept,
102401 bytes is skipped and counted. -/
theorem size_gate_witness :
    check_article_size bigContent = true ∧
    check_article_size overContent = false ∧
    (format_one (fun s => s) "k" none artBig).isSome = true ∧
    (format_one (fun s => s) "k" none artOver).isSome = false ∧
    (format_articles_for_ada (fun s => s) [artOver] "k" none).skipped_count = 1 := by
  have hbig : utf8Len bigContent = 102400 := utf8ByteLen_replicate_a 102400
  have hover : utf8Len overContent = 102401 := utf8ByteLen_replicate_a 102401
  have h5 : ¬ utf8Len ((fun s => s) (artOver.body.getD "")) ≤ 102400 := by
    show ¬ utf8Len overContent ≤ 102400
    rw [hover]
    norm_num
  refine ⟨?_, ?_, ?_, ?_, ?_⟩
  · exact (size_gate_spec.1 bigContent).1.mpr (by rw [hbig])
  · have hi := (size_gate_spec.1 overContent).1
    rw [Bool.eq_false_iff]
    intro h1
    rw [hover] at hi
    exact absurd (hi.mp h1) (by norm_num)
  · exact (size_gate_spec.2 (fun s => s) "k" none artBig).1.mpr
      (by show utf8Len bigContent ≤ 102400; rw [hbig])
  · have hi := (size_gate_spec.2 (fun s => s) "k" none artOver).1
    rw [Bool.eq_false_iff]
    intro h1
    exact absurd (hi.mp h1) h5
  · have hgen : ∀ x : RawArticle, ¬ utf8Len ((fun s => s) (x.body.getD "")) ≤ 102400 →
        (format_articles_for_ada (fun s => s) [x] "k" none).skipped_count = 1 := by
      intro x hx
      have h4 := (size_gate_spec.2 (fun s => s) "k" none x).2.2 []
      rw [if_neg hx] at h4
      rw [h4]
      rfl
    exact hgen artOver h5

/-- The dedup loop yields a sublist of its input. -/
theorem dedupeAux_sublist (xs : List RawArticle) :
    ∀ seen, (dedupeAux seen xs).Sublist xs := by
  induction xs with
  | nil => intro seen; simp [dedupeAux]
  | cons a rest ih =>
    intro seen
    unfold dedupeAux
    by_cases h : a.id ∈ seen
    · rw [if_pos h]
      exact (ih seen).trans (List.sublist_cons_self a rest)
    · rw [if_neg h]
      exact List.Sublist.cons₂ a (ih (a.id :: seen))

/-- Ids already seen do not reappear in the dedup output. -/
theorem dedupeAux_id_not_seen (xs : List RawArticle) :
    ∀ seen b, b ∈ dedupeAux seen xs → b.id ∉ seen := by
  induction xs with
  | nil => intro seen b hb; simp [dedupeAux] at hb
  | cons a rest ih =>
    intro seen b hb
    unfold dedupeAux at hb
    by_cases h : a.id ∈ seen
    · rw [if_pos h] at hb
      exact ih seen b hb
    · rw [if_neg h] at hb
      rcases List.mem_cons.mp hb with h1 | h1
      · subst h1
        exact h
      · have h2 := ih (a.id :: seen) b h1
        intro hmem
        exact h2 (List.mem_cons_of_mem _ hmem)

/-- The dedup output has pairwise distinct ids. -/
theorem dedupeAux_pairwise (xs : List RawArticle) :
    ∀ seen, List.Pairwise (fun a b => a.id ≠ b.id) (dedupeAux seen xs) := by
  induction xs with
  | nil => intro seen; simp [dedupeAux]
  | cons a rest ih =>
    intro seen
    unfold dedupeAux
    by_cases h : a.id ∈ seen
    · rw [if_pos h]
      exact ih seen
    · rw [if_neg h]
      refine List.Pairwise.cons ?_ (ih (a.id :: seen))
      intro b hb heq
      exact dedupeAux_id_not_seen rest (a.id :: seen) b hb
        (by rw [← heq]; exact List.mem_cons_self _ _)

/-- Every input id is represented in the dedup output when not seen yet. -/
theorem dedupeAux_covers (xs : List RawArticle) :
    ∀ seen a, a ∈ xs → a.id ∉ seen → ∃ b ∈ dedupeAux seen xs, b.id = a.id := by
  induction xs with
  | nil => intro seen a ha; simp at ha
  | cons x rest ih =>
    intro seen a ha hseen
    unfold dedupeAux
    by_cases h : x.id ∈ seen
    · rw [if_pos h]
      rcases List.mem_cons.mp ha with h1 | h1
      · subst h1
        exact absurd h hseen
      · exact ih seen a h1 hseen
    · rw [if_neg h]
      by_cases hid : a.id = x.id
      · exact ⟨x, List.mem_cons_self x _, hid.symm⟩
      · rcases List.mem_cons.mp ha with h1 | h1
        · subst h1
          exact absurd rfl hid
        · have hnotin : a.id ∉ x.id :: seen := by
            intro hm
            rcases List.mem_cons.mp hm with h2 | h2
            · exact hid h2
            · exact hseen h2
          obtain ⟨b, hb, hbid⟩ := ih (x.id :: seen) a h1 hnotin
          exact ⟨b, List.mem_cons_of_mem _ hb, hbid⟩

/-- Each dedup output element is the first input occurrence of its id. -/
theorem dedupeAux_find (xs : List RawArticle) :
    ∀ seen b, b ∈ dedupeAux seen xs →
      xs.find? (fun x => x.id == b.id) = some b := by
  induction xs with
  | nil => intro seen b hb; simp [dedupeAux] at hb
  | cons x rest ih =>
    intro seen b hb
    unfold dedupeAux at hb
    by_cases h : x.id ∈ seen
    · rw [if_pos h] at hb
      have hbn := dedupeAux_id_not_seen rest seen b hb
      have hne : x.id ≠ b.id := by
        intro heq
        exact hbn (heq ▸ h)
      rw [List.find?_cons_of_neg _ (by simp [hne])]
      exact ih seen b hb
    · rw [if_neg h] at hb
      rcases List.mem_cons.mp hb with h1 | h1
      · subst h1
        exact List.find?_cons_of_pos _ (by simp)
      · have hbn := dedupeAux_id_not_seen rest (x.id :: seen) b h1
        have hne : x.id ≠ b.id := by
          intro heq
          exact hbn (heq ▸ List.mem_cons_self _ _)
        rw [List.find?_cons_of_neg _ (by simp [hne])]
        exact ih (x.id :: seen) b h1

/-- C4: dedupe returns a stable subsequence keyed on the numeric article
id alone: a sublist of the input (hence no longer, and preserving
relative order), with pairwise distinct ids, every input id still
represented, and each survivor equal to the first input occurrence
carrying its id, so two articles sharing an id but differing in locale
collapse to the first one seen. -/
theorem dedupe_spec (xs : List RawArticle) :
    (dedupe xs).Sublist xs ∧
    (dedupe xs).length ≤ xs.length ∧
    List.Pairwise (fun a b => a.id ≠ b.id) (dedupe xs) ∧
    (∀ a ∈ xs, ∃ b ∈ dedupe xs, b.id = a.id) ∧
    (∀ b ∈ dedupe xs, xs.find? (fun x => x.id == b.id) = some b) := by
  refine ⟨dedupeAux_sublist xs [], (dedupeAux_sublist xs []).length_le,
    dedupeAux_pairwise xs [], ?_, ?_⟩
  · intro a ha
    exact dedupeAux_covers xs [] a ha (by simp)
  · intro b hb
    exact dedupeAux_find xs [] b hb

/-- Concrete dedupe witness: two articles sharing id 42 with different
locales collapse to the first one, whose id still represents both. -/
theorem dedupe_spec_witness :
    dedupe [articleA, articleAfr] = [articleA] ∧
    (∃ b ∈ dedupe [articleA, articleAfr], b.id = articleAfr.id) := by
  refine ⟨by decide, ?_⟩
  exact (dedupe_spec [articleA, articleAfr]).2.2.2.1 articleAfr (by decide)

/-- Without credentials the planner returns nothing and fetches nothing. -/
theorem fetch_auth_false (env : FetchEnv) (ls : List String) (bs cs : List Int)
    (h : env.auth = false) :
    fetch_articles_with_filters env ls bs cs = ([], []) := by
  unfold fetch_articles_with_filters
  rw [if_pos (by simp [h])]

/-- With all selector lists empty the planner returns nothing and fetches
nothing. -/
theorem fetch_empty (env : FetchEnv) :
    fetch_articles_with_filters env [] [] [] = ([], []) := by
  unfold fetch_articles_with_filters
  rcases Bool.eq_false_or_eq_true env.auth with h | h
  · rw [if_neg (by simp [h]), if_pos ⟨rfl, rfl, rfl⟩]
  · rw [if_pos (by simp [h])]

/-- Past the early returns, the planner output splits into the dispatched
branch calls and the filtered, deduplicated articles. -/
theorem fetch_eq (env : FetchEnv) (ls : List String) (bs cs : List Int)
    (h1 : env.auth = true) (h2 : ¬(ls = [] ∧ bs = [] ∧ cs = [])) :
    fetch_articles_with_filters env ls bs cs =
      (dedupe (filter_published_articles env.published_only
        (if cs ≠ [] ∧ (bs ≠ [] ∨ ls ≠ []) then
          (filter_by_categories env.sections (planBranches env ls bs cs).1 cs).1
        else (planBranches env ls bs cs).1)),
       (planBranches env ls bs cs).2) := by
  unfold fetch_articles_with_filters
  rw [if_neg (by simp [h1]), if_neg h2]

/-- C2: with all three selector sets empty, the planner returns the empty
article sequence and records zero fetch calls, whatever the environment
(no fetch function is invoked at all). -/
theorem empty_filters_no_fetch (env : FetchEnv) :
    fetch_articles_with_filters env [] [] [] = ([], []) :=
  fetch_empty env

/-- The published filter with the flag set keeps exactly the articles
whose draft field is present and false. -/
theorem filter_published_true (arts : List RawArticle) :
    filter_published_articles true arts =
      arts.filter (fun a => a.draft == some false) := by
  unfold filter_published_articles
  rw [if_neg (by simp)]
  apply List.filter_congr
  intro a _
  cases hd : a.draft with
  | none => rfl
  | some b => cases b <;> rfl

/-- C10: with published-only filtering active, the published filter keeps
exactly the articles whose draft field is present and false, and every
article the planner returns has draft present and false; in particular a
raw article missing the draft key never survives to deduplication or the
planner output. -/
theorem published_filter_requires_draft_false :
    (∀ arts, filter_published_articles true arts =
      arts.filter (fun a => a.draft == some false)) ∧
    (∀ env ls bs cs a, env.published_only = true →
      a ∈ (fetch_articles_with_filters env ls bs cs).1 → a.draft = some false) := by
  refine ⟨filter_published_true, ?_⟩
  intro env ls bs cs a hpub ha
  rcases Bool.eq_false_or_eq_true env.auth with h1 | h1
  · by_cases h2 : ls = [] ∧ bs = [] ∧ cs = []
    · obtain ⟨hl, hb, hc2⟩ := h2
      subst hl
      subst hb
      subst hc2
      rw [fetch_empty env] at ha
      simp at ha
    · rw [fetch_eq env ls bs cs h1 h2] at ha
      have ha2 := (dedupeAux_sublist _ []).mem ha
      rw [hpub, filter_published_true] at ha2
      have ha3 := (List.mem_filter.mp ha2).2
      simpa using ha3
  · rw [fetch_auth_false env ls bs cs h1] at ha
    simp at ha

/-- Witness for the published filter: the article with draft false
survives the pipeline of envP and indeed has draft equal to some false. -/
theorem published_filter_witness : artPub.draft = some false :=
  published_filter_requires_draft_false.2 envP ["en"] [] [] artPub rfl (by decide)

/-- The calls of the brand-only loop. -/
theorem brandLoop_calls (src : String → List RawArticle) (brands : List Brand) :
    (brandLoop src brands).2 = brands.map (fun b =>
      FetchCall.brand b (get_brand_base_url b ++ "/api/v2/help_center/articles")) := by
  induction brands with
  | nil => rfl
  | cons b bs ih => simp [brandLoop, ih, fetch_brand_articles]

/-- The calls of the locale-only loop. -/
theorem localeLoop_calls (src : String → List RawArticle) (sub : String)
    (ls : List String) :
    (localeLoop src sub ls).2 = ls.map (fun l => FetchCall.localeOnly l
      ("https://" ++ sub ++ ".zendesk.com/api/v2/help_center/" ++ l ++ "/articles")) := by
  induction ls with
  | nil => rfl
  | cons l ls2 ih => simp [localeLoop, ih, fetch_locale_articles]

/-- The calls of the inner brand-and-locale loop. -/
theorem brandLocaleInner_calls (src : String → List RawArticle) (b : Brand)
    (ls : List String) :
    (brandLocaleInner src b ls).2 = ls.map (fun l =>
      FetchCall.brandLocale b l
        (get_brand_base_url b ++ "/api/v2/help_center/" ++ l ++ "/articles")) := by
  induction ls with
  | nil => rfl
  | cons l ls2 ih => simp [brandLocaleInner, ih, fetch_brand_locale_articles]

/-- The calls of the brand-and-locale cross-product loop. -/
theorem brandLocaleLoop_calls (src : String → List RawArticle)
    (brands : List Brand) (ls : List String) :
    (brandLocaleLoop src brands ls).2 = (brands.map (fun b => ls.map (fun l =>
      FetchCall.brandLocale b l
        (get_brand_base_url b ++ "/api/v2/help_center/" ++ l ++ "/articles")))).flatten := by
  induction brands with
  | nil => rfl
  | cons b bs ih => simp [brandLocaleLoop, ih, brandLocaleInner_calls]

/-- Every brand-scoped call dispatched by the planner builds its url from
get_brand_base_url. -/
theorem planBranches_call_urls (env : FetchEnv) (ls : List String)
    (bs cs : List Int) :
    ∀ c ∈ (planBranches env ls bs cs).2,
      (∀ b u, c = FetchCall.brand b u →
        u = get_brand_base_url b ++ "/api/v2/help_center/articles") ∧
      (∀ b l u, c = FetchCall.brandLocale b l u →
        u = get_brand_base_url b ++ "/api/v2/help_center/" ++ l ++ "/articles") := by
  intro c hc
  unfold planBranches at hc
  split at hc
  · rw [brandLoop_calls] at hc
    obtain ⟨b2, _, he⟩ := List.mem_map.mp hc
    subst he
    constructor
    · intro b u heq
      rw [FetchCall.brand.injEq] at heq
      obtain ⟨hb, hu⟩ := heq
      subst hb
      exact hu.symm
    · intro b l u heq
      exact absurd heq (by simp)
  · split at hc
    · rw [localeLoop_calls] at hc
      obtain ⟨l2, _, he⟩ := List.mem_map.mp hc
      subst he
      constructor
      · intro b u heq
        exact absurd heq (by simp)
      · intro b l u heq
        exact absurd heq (by simp)
    · split at hc
      · rw [brandLocaleLoop_calls] at hc
        rw [List.mem_flatten] at hc
        obtain ⟨inner, hin, hcin⟩ := hc
        obtain ⟨b2, _, he⟩ := List.mem_map.mp hin
        subst he
        obtain ⟨l2, _, he2⟩ := List.mem_map.mp hcin
        subst he2
        constructor
        · intro b u heq
          exact absurd heq (by simp)
        · intro b l u heq
          rw [FetchCall.brandLocale.injEq] at heq
          obtain ⟨hb, hl, hu⟩ := heq
          subst hb
          subst hl
          exact hu.symm
      · split at hc
        · rcases List.mem_cons.mp hc with h1 | h1
          · subst h1
            constructor
            · intro b u heq
              exact absurd heq (by simp [fetch_all_articles_for_category_filter])
            · intro b l u heq
              exact absurd heq (by simp [fetch_all_articles_for_category_filter])
          · simp at h1
        · simp at hc

/-- C9: the computed brand base url is the https host_mapping when the
host_mapping is present and non-empty, and the https subdomain dot
zendesk dot com form otherwise; and every brand-scoped fetch call the
planner records, in the brand-only branch and the brand-and-locale branch
alike, builds its url from get_brand_base_url. -/
theorem brand_base_url_single_source :
    (∀ b h, b.host_mapping = some h → h ≠ "" →
      get_brand_base_url b = "https://" ++ h) ∧
    (∀ b, b.host_mapping = none ∨ b.host_mapping = some "" →
      get_brand_base_url b = "https://" ++ b.subdomain ++ ".zendesk.com") ∧
    (∀ env ls bs cs c, c ∈ (fetch_articles_with_filters env ls bs cs).2 →
      (∀ b u, c = FetchCall.brand b u →
        u = get_brand_base_url b ++ "/api/v2/help_center/articles") ∧
      (∀ b l u, c = FetchCall.brandLocale b l u →
        u = get_brand_base_url b ++ "/api/v2/help_center/" ++ l ++ "/articles")) := by
  refine ⟨?_, ?_, ?_⟩
  · intro b h hm hne
    simp [get_brand_base_url, hm, hne]
  · intro b hm
    rcases hm with hm | hm <;> simp [get_brand_base_url, hm]
  · intro env ls bs cs c hc
    rcases Bool.eq_false_or_eq_true env.auth with h1 | h1
    · by_cases h2 : ls = [] ∧ bs = [] ∧ cs = []
      · obtain ⟨hl, hb, hc2⟩ := h2
        subst hl
        subst hb
        subst hc2
        rw [fetch_empty env] at hc
        simp at hc
      · rw [fetch_eq env ls bs cs h1 h2] at hc
        exact planBranches_call_urls env ls bs cs c hc
    · rw [fetch_auth_false env ls bs cs h1] at hc
      simp at hc

/-- Witness for the base-url rule: the planner-issued brand call of envW
carries exactly the url built from get_brand_base_url. -/
theorem brand_base_url_witness :
    ("https://b1.zendesk.com/api/v2/help_center/articles" : String)
      = get_brand_base_url brand1 ++ "/api/v2/help_center/articles" := by
  have hmem : FetchCall.brand brand1 "https://b1.zendesk.com/api/v2/help_center/articles"
      ∈ (fetch_articles_with_filters envW [] [1] []).2 := by decide
  exact (brand_base_url_single_source.2.2 envW [] [1] [] _ hmem).1 brand1 _ rfl

/-- C5: when both brands and locales are selected the planner records one
brand-and-locale fetch call per pair of the full cross product, at the
brand base url with the locale segment; for the single brand with id 1
and locales en and fr it issues exactly the two expected calls, in order,
and no others. -/
theorem brand_locale_cross_product :
    (∀ env ls bs cs, env.auth = true → bs ≠ [] → ls ≠ [] →
      (fetch_articles_with_filters env ls bs cs).2 =
        ((env.brands.filter (fun b => decide (b.id ∈ bs))).map (fun b =>
          ls.map (fun l => FetchCall.brandLocale b l
            (get_brand_base_url b ++ "/api/v2/help_center/" ++ l ++ "/articles")))).flatten) ∧
    (∀ env b, env.auth = true → env.brands = [b] → b.id = 1 →
      (fetch_articles_with_filters env ["en", "fr"] [1] []).2 =
        [FetchCall.brandLocale b "en"
          (get_brand_base_url b ++ "/api/v2/help_center/en/articles"),
         FetchCall.brandLocale b "fr"
          (get_brand_base_url b ++ "/api/v2/help_center/fr/articles")]) := by
  have hgen : ∀ env ls bs cs, env.auth = true → bs ≠ [] → ls ≠ [] →
      (fetch_articles_with_filters env ls bs cs).2 =
        ((env.brands.filter (fun b => decide (b.id ∈ bs))).map (fun b =>
          ls.map (fun l => FetchCall.brandLocale b l
            (get_brand_base_url b ++ "/api/v2/help_center/" ++ l ++ "/articles")))).flatten := by
    intro env ls bs cs h1 hb hl
    rw [fetch_eq env ls bs cs h1 (by intro h; exact hb h.2.1)]
    show (planBranches env ls bs cs).2 = _
    unfold planBranches
    rw [if_neg (by intro h; exact hl h.2), if_neg (by intro h; exact hb h.2),
        if_pos ⟨hb, hl⟩]
    exact brandLocaleLoop_calls env.src _ ls
  have he1 : ∀ s : String, s ++ "/api/v2/help_center/" ++ "en" ++ "/articles"
      = s ++ "/api/v2/help_center/en/articles" := by
    intro s
    rw [String.append_assoc, String.append_assoc]
    congr 1
  have he2 : ∀ s : String, s ++ "/api/v2/help_center/" ++ "fr" ++ "/articles"
      = s ++ "/api/v2/help_center/fr/articles" := by
    intro s
    rw [String.append_assoc, String.append_assoc]
    congr 1
  refine ⟨hgen, ?_⟩
  intro env b h1 hbr hid
  rw [hgen env ["en", "fr"] [1] [] h1 (by simp) (by simp)]
  rw [hbr]
  have hfil : ([b].filter (fun x => decide (x.id ∈ ([1] : List Int)))) = [b] := by
    simp [hid]
  rw [hfil]
  simp only [List.map_cons, List.map_nil, List.flatten_cons, List.flatten_nil,
    List.append_nil]
  rw [he1 (get_brand_base_url b), he2 (get_brand_base_url b)]

/-- Witness for the cross product: envW with brand 1 and locales en and
fr issues exactly the two expected calls. -/
theorem brand_locale_cross_product_witness :
    (fetch_articles_with_filters envW ["en", "fr"] [1] []).2 =
      [FetchCall.brandLocale brand1 "en"
        (get_brand_base_url brand1 ++ "/api/v2/help_center/en/articles"),
       FetchCall.brandLocale brand1 "fr"
        (get_brand_base_url brand1 ++ "/api/v2/help_center/fr/articles")] :=
  brand_locale_cross_product.2 envW brand1 rfl rfl rfl

/-- The category-membership test on one section, as a proposition. -/
theorem catMatch_iff (s : Section) (sel : List Int) :
    ((match s.category_id with
      | some c => decide (c ∈ sel)
      | none => false) = true) ↔ ∃ cid, s.category_id = some cid ∧ cid ∈ sel := by
  cases hc : s.category_id <;> simp [hc]

/-- C8 counterexample: with a non-empty section table and a non-empty
selected-category set, an article whose section id is the integer zero is
excluded even though that id resolves through the table to a selected
category, because Python truthiness treats a zero section id like a
missing one. -/
theorem category_filter_zero_cex :
    articleSectionZero.section_id = some 0 ∧
    sectionZero.id = 0 ∧
    sectionZero.category_id = some 5 ∧
    ((5 : Int) ∈ ([5] : List Int)) ∧
    (filter_by_categories [sectionZero] [articleSectionZero] [5]).1 = [] := by
  decide

/-- C8 (amended): with a non-empty selected-category set and a non-empty
section table, an article is kept exactly when its section id is present,
non-zero, and resolves through the table to a category id in the selected
set — so an article with a missing, zero, or unresolvable section id is
excluded — and with an empty section table the filter returns its input
unchanged while reporting the fail-open warning. -/
theorem category_filter_spec (sections : List Section)
    (arts : List RawArticle) (sel : List Int) (hsel : sel ≠ []) :
    (sections ≠ [] → ∀ a, (a ∈ (filter_by_categories sections arts sel).1 ↔
      (a ∈ arts ∧ ∃ sid, a.section_id = some sid ∧ sid ≠ 0 ∧
        ∃ s, s ∈ sections ∧ s.id = sid ∧
          ∃ cid, s.category_id = some cid ∧ cid ∈ sel))) ∧
    (sections = [] → filter_by_categories sections arts sel = (arts, true)) := by
  constructor
  · intro hsec a
    unfold filter_by_categories
    rw [if_neg hsel, if_neg hsec]
    show a ∈ List.filter _ arts ↔ _
    rw [List.mem_filter]
    refine and_congr_right fun _ => ?_
    cases hsid : a.section_id with
    | none => simp [hsid]
    | some sid =>
      by_cases hz : sid = 0
      · simp [hsid, hz]
      · simp only [hsid, if_neg hz, List.any_eq_true, Bool.and_eq_true, beq_iff_eq,
          catMatch_iff, Option.some.injEq]
        constructor
        · rintro ⟨s, hs, hid, cid, hcid, hcsel⟩
          exact ⟨sid, rfl, hz, s, hs, hid, cid, hcid, hcsel⟩
        · rintro ⟨sid2, heq, _, s, hs, hid, cid, hcid, hcsel⟩
          subst heq
          exact ⟨s, hs, hid, cid, hcid, hcsel⟩
  · intro hsec
    unfold filter_by_categories
    rw [if_neg hsel, if_pos hsec]

/-- Witness for the category filter: a resolvable non-zero section id is
kept, and the empty table falls open with the warning. -/
theorem category_filter_witness :
    articleSectionTwo ∈ (filter_by_categories [sectionTwo] [articleSectionTwo] [7]).1 ∧
    filter_by_categories [] [articleSectionTwo] [7] = ([articleSectionTwo], true) := by
  constructor
  · exact ((category_filter_spec [sectionTwo] [articleSectionTwo] [7]
      (by decide)).1 (by decide) articleSectionTwo).mpr
      ⟨by decide, 2, rfl, by decide, sectionTwo, by decide, rfl, 7, rfl, by decide⟩
  · exact (category_filter_spec [] [articleSectionTwo] [7] (by decide)).2 rfl

/-- C1 counterexample: transforming the scenario-A article yields the
destination id zd_42-en — the fixed prefix, the source id, a dash and the
source locale — not the claimed zd_42 with nothing else appended. -/
theorem transform_id_cex :
    (format_articles_for_ada (fun _ => "hi") [articleA] "k" none).articles.map
        TransformedArticle.id = ["zd_42-en"] ∧
    ("zd_42-en" : String) ≠ "zd_42" := by
  decide

/-- C1 (amended): transforming the scenario-A article with no brand
annotation and no language override yields the single transformed article
with id zd_42-en (the fixed prefix, the source id, a dash and the source
locale), name T, content equal to the markdown conversion of the body,
the source html_url unchanged in the url field, empty tag_ids and
language en; and in general every article without a brand annotation that
passes the size gate keeps its html_url unchanged in the output url. -/
theorem transform_scenario_a (conv : String → String) (ks : String)
    (hgate : check_article_size (conv "<p>hi</p>") = true) :
    (format_articles_for_ada conv [articleA] ks none).articles =
      [{ id := "zd_42-en", name := "T", content := conv "<p>hi</p>",
         knowledge_source_id := ks,
         url := "https://foo.zendesk.com/hc/en-us/articles/42",
         tag_ids := [], language := "en" }] ∧
    (∀ a ov t, a._brand_url = none → format_one conv ks ov a = some t →
      t.url = a.html_url) := by
  constructor
  · have h1 : format_one conv ks none articleA =
        some { id := "zd_42-en", name := "T", content := conv "<p>hi</p>",
               knowledge_source_id := ks,
               url := "https://foo.zendesk.com/hc/en-us/articles/42",
               tag_ids := [], language := "en" } := by
      simp only [format_one]
      rw [show articleA.body.getD "" = "<p>hi</p>" from rfl]
      rw [if_pos hgate]
      refine congrArg some ?_
      congr 1
    simp only [format_articles_for_ada, h1]
  · intro a ov t hbrand hfmt
    simp only [format_one] at hfmt
    by_cases hg : check_article_size (conv (a.body.getD "")) = true
    · rw [if_pos hg] at hfmt
      rw [Option.some.injEq] at hfmt
      subst hfmt
      show corrected_url a = a.html_url
      simp [corrected_url, hbrand]
    · rw [if_neg hg] at hfmt
      exact Option.noConfusion hfmt

/-- Witness for scenario A at a concrete conversion. -/
theorem transform_scenario_a_witness :
    (format_articles_for_ada (fun _ => "hi") [articleA] "k" none).articles =
      [{ id := "zd_42-en", name := "T", content := "hi", knowledge_source_id := "k",
         url := "https://foo.zendesk.com/hc/en-us/articles/42", tag_ids := [],
         language := "en" }] :=
  (transform_scenario_a (fun _ => "hi") "k" (by decide)).1

/-- The brand base url is never the empty string. -/
theorem get_brand_base_url_ne_empty (b : Brand) : get_brand_base_url b ≠ "" := by
  have hne : ∀ s : String, "https://" ++ s ≠ "" := by
    intro s h
    have h2 := congrArg String.data h
    rw [String.data_append] at h2
    simp at h2
  unfold get_brand_base_url
  cases b.host_mapping with
  | none => exact hne _
  | some h =>
    show (if h = "" then "https://" ++ b.subdomain ++ ".zendesk.com"
      else "https://" ++ h) ≠ ""
    by_cases he : h = ""
    · rw [if_pos he]
      exact hne _
    · rw [if_neg he]
      exact hne _

/-- C6: with a non-empty brand-url annotation and a non-empty source url
the corrected url is the annotation followed by the parsed path, then the
query behind a question mark when non-empty, then the fragment behind a
hash when non-empty; the format loop emits exactly the corrected url;
brand-scoped fetching always stamps the annotation with the non-empty
get_brand_base_url value; and the scenario-B article comes out at the
help.bar.com url. -/
theorem url_correction_spec :
    (∀ a bu, a._brand_url = some bu → bu ≠ "" → a.html_url ≠ "" →
      corrected_url a = bu ++ (urlparse a.html_url).path
        ++ (if (urlparse a.html_url).query = "" then ""
            else "?" ++ (urlparse a.html_url).query)
        ++ (if (urlparse a.html_url).fragment = "" then ""
            else "#" ++ (urlparse a.html_url).fragment)) ∧
    (∀ conv ks ov a t, format_one conv ks ov a = some t →
      t.url = corrected_url a) ∧
    (∀ brand a, (annotateBrand brand a)._brand_url = some (get_brand_base_url brand) ∧
      get_brand_base_url brand ≠ "") ∧
    (∀ conv ks ov t, format_one conv ks ov articleB = some t →
      t.url = "https://help.bar.com/hc/en-us/articles/42") := by
  have hfmt_url : ∀ conv ks ov a t, format_one conv ks ov a = some t →
      t.url = corrected_url a := by
    intro conv ks ov a t h
    simp only [format_one] at h
    by_cases hg : check_article_size (conv (a.body.getD "")) = true
    · rw [if_pos hg] at h
      rw [Option.some.injEq] at h
      subst h
      rfl
    · rw [if_neg hg] at h
      exact Option.noConfusion h
  refine ⟨?_, hfmt_url, ?_, ?_⟩
  · intro a bu hb hbne hune
    simp only [corrected_url, hb]
    rw [if_neg (not_or.mpr ⟨hbne, hune⟩)]
  · intro brand a
    exact ⟨rfl, get_brand_base_url_ne_empty brand⟩
  · intro conv ks ov t h
    rw [hfmt_url conv ks ov articleB t h]
    decide

/-- Witness for the url correction at a concrete conversion: scenario B
formats to the bar.com url. -/
theorem url_correction_witness :
    format_one (fun _ => "") "k" none articleB = some articleBout ∧
    articleBout.url = "https://help.bar.com/hc/en-us/articles/42" := by
  have h : format_one (fun _ => "") "k" none articleB = some articleBout := by decide
  exact ⟨h, url_correction_spec.2.2.2 (fun _ => "") "k" none articleBout h⟩

/-- C7: the upload driver never counts a 429 as an error: each leading
429 of a script adds exactly one sixty-unit cooldown wait and leaves the
articles outcome to the rest of the script (the same article is retried
until a non-429 response); a first response that is neither 200, 201 nor
429 ends the article in error with no cooldown; a finished article
contributes its outcome and the driver simply advances to the rest of the
batch; and the 429-then-200 script ends with one success, zero errors and
exactly one sixty-unit cooldown. -/
theorem upload_retry_spec :
    (∀ n rest, uploadOne (List.replicate n (UploadResp.status 429) ++ rest) =
      (uploadOne rest).map (fun r => (r.1, r.2 + 60 * n))) ∧
    (∀ code, ¬(code = 200 ∨ code = 201) → code ≠ 429 →
      ∀ rest, uploadOne (UploadResp.status code :: rest) = some (false, 0)) ∧
    (∀ s rest r, uploadOne s = some r →
      upload_articles_to_ada (s :: rest) =
        (upload_articles_to_ada rest).map (fun acc =>
          { success_count := (if r.1 then 1 else 0) + acc.success_count
            error_count := (if r.1 then 0 else 1) + acc.error_count
            wait_time := r.2 + acc.wait_time })) ∧
    (upload_articles_to_ada [[UploadResp.status 429, UploadResp.status 200]] =
      some { success_count := 1, error_count := 0, wait_time := 60 }) := by
  refine ⟨?_, ?_, ?_, by decide⟩
  · intro n
    induction n with
    | zero =>
      intro rest
      show uploadOne rest = (uploadOne rest).map (fun r => (r.1, r.2 + 60 * 0))
      cases h : uploadOne rest <;> simp
    | succ k ih =>
      intro rest
      rw [List.replicate_succ, List.cons_append]
      show (if (429 : Nat) = 200 ∨ (429 : Nat) = 201 then some (true, 0)
        else if (429 : Nat) = 429 then
          (uploadOne (List.replicate k (UploadResp.status 429) ++ rest)).map
            (fun r => (r.1, r.2 + 60))
        else some (false, 0)) = _
      rw [if_neg (by norm_num), if_pos rfl, ih rest]
      cases h : uploadOne rest <;> simp [Nat.mul_succ, Nat.add_assoc]
  · intro code h1 h2 rest
    show (if code = 200 ∨ code = 201 then some (true, 0)
      else if code = 429 then
        (uploadOne rest).map (fun r => (r.1, r.2 + 60))
      else some (false, 0)) = some (false, 0)
    rw [if_neg h1, if_neg h2]
  · intro s rest r h
    simp only [upload_articles_to_ada]
    rw [h]
    cases h2 : upload_articles_to_ada rest <;> simp

/-- Witness for the upload driver: a 500 is an immediate error with no
cooldown, and the 429-then-200 script gives one success and one
sixty-unit cooldown. -/
theorem upload_retry_witness :
    uploadOne [UploadResp.status 500] = some (false, 0) ∧
    upload_articles_to_ada [[UploadResp.status 429, UploadResp.status 200]] =
      some { success_count := 1, error_count := 0, wait_time := 60 } :=
  ⟨upload_retry_spec.2.1 500 (by norm_num) (by norm_num) [],
   upload_retry_spec.2.2.2⟩

end ZD
